import Mathlib

/-!
Verification of the resilience layer in `smart_retry_handler.py`: error
classification, retry-after extraction, backoff delay computation, the
per-key circuit-breaker state machine, and the retry-execution loop.

The Python code is shallowly embedded: timestamps and delays are modelled
as rationals (`time.time()` values are passed in explicitly as a `now`
argument), the mutable `self.circuit_breakers` dict is modelled as an
association list threaded through each operation, and the random jitter
draw of `random.uniform` is modelled as an explicit argument constrained
by the theorems that need it.
-/

/-- Embedding of the `ErrorType` enum. -/
inductive ErrorType where
  | rateLimit
  | serverError
  | networkError
  | timeoutError
  | serviceUnavailable
  | unknown
deriving DecidableEq, Repr

/-- Embedding of `SmartRetryConfig` (numeric fields as rationals, counts as naturals). -/
structure SmartRetryConfig where
  max_attempts : Nat
  base_delay : ℚ
  max_delay : ℚ
  exponential_factor : ℚ
  jitter : Bool
  failure_threshold : Nat
  recovery_timeout : ℚ
  half_open_max_calls : Nat
  rate_limit_recovery_multiplier : ℚ
deriving DecidableEq, Repr

/-- Embedding of `SmartCircuitBreakerState`; the `state` field is a string
with values "CLOSED", "OPEN", "HALF_OPEN", as in the Python dataclass. -/
structure SmartCircuitBreakerState where
  failure_count : Nat
  success_count : Nat
  last_failure_time : Option ℚ
  last_success_time : Option ℚ
  state : String
  half_open_calls : Nat
  consecutive_rate_limits : Nat
  last_rate_limit_time : Option ℚ
deriving DecidableEq, Repr

/-- The dataclass defaults of `SmartCircuitBreakerState`. -/
def SmartCircuitBreakerState.init : SmartCircuitBreakerState :=
  { failure_count := 0
    success_count := 0
    last_failure_time := none
    last_success_time := none
    state := "CLOSED"
    half_open_calls := 0
    consecutive_rate_limits := 0
    last_rate_limit_time := none }

/-- Embedding of `SmartRetryHandler`: the config plus the `circuit_breakers`
dict, modelled as an association list keyed by strings. -/
structure SmartRetryHandler where
  config : SmartRetryConfig
  circuit_breakers : List (String × SmartCircuitBreakerState)
deriving DecidableEq, Repr

/-- A handler as produced by `SmartRetryHandler.__init__`: empty breaker dict. -/
def freshHandler (cfg : SmartRetryConfig) : SmartRetryHandler :=
  { config := cfg, circuit_breakers := [] }

/-- Dict lookup `self.circuit_breakers[key]` / `key in self.circuit_breakers`. -/
def lookupCB : List (String × SmartCircuitBreakerState) → String → Option SmartCircuitBreakerState
  | [], _ => none
  | (k, w) :: rest, key => if k = key then some w else lookupCB rest key

/-- Dict assignment `self.circuit_breakers[key] = v`. -/
def setCB : List (String × SmartCircuitBreakerState) → String → SmartCircuitBreakerState →
    List (String × SmartCircuitBreakerState)
  | [], key, v => [(key, v)]
  | (k, w) :: rest, key, v =>
    if k = key then (key, v) :: rest else (k, w) :: setCB rest key v

/-- The lazy-creation idiom `if key not in self.circuit_breakers:
self.circuit_breakers[key] = SmartCircuitBreakerState()`. -/
def ensureCB (cbs : List (String × SmartCircuitBreakerState)) (key : String) :
    List (String × SmartCircuitBreakerState) :=
  match lookupCB cbs key with
  | some _ => cbs
  | none => cbs ++ [(key, SmartCircuitBreakerState.init)]

/-- Model of the Python exceptions that reach `classify_error`: an
`httpx.HTTPStatusError` with its status code and optional `retry-after`
header, the timeout exception family, the network exception family, and
any other exception, each carrying its `str(error)` message. -/
inductive PyExc where
  | httpStatusError (status : Nat) (retryAfterHeader : Option String) (msg : String)
  | timeoutExc (msg : String)
  | networkExc (msg : String)
  | generic (msg : String)
deriving DecidableEq, Repr

/-- The `str(error)` text of an exception. -/
def PyExc.message : PyExc → String
  | .httpStatusError _ _ m => m
  | .timeoutExc m => m
  | .networkExc m => m
  | .generic m => m

/-- Character-list prefix test, used to model Python substring search. -/
def listPrefixOf : List Char → List Char → Bool
  | [], _ => true
  | _ :: _, [] => false
  | a :: as, b :: bs => a = b && listPrefixOf as bs

/-- Character-list substring test. -/
def listContains (needle : List Char) : List Char → Bool
  | [] => needle.isEmpty
  | c :: rest => listPrefixOf needle (c :: rest) || listContains needle rest

/-- Python `needle in hay` on strings. -/
def strContains (hay needle : String) : Bool :=
  listContains needle.data hay.data

/-- Python `s.lower()` (ASCII case folding suffices for the literals used). -/
def strToLower (s : String) : String :=
  ⟨s.data.map Char.toLower⟩

/-- Embedding of `classify_error`: structured signals (status code, exception
family) take priority; text heuristics apply only to otherwise-unrecognised
exceptions, exactly as the Python `elif` chain does. -/
def classify_error (e : PyExc) : ErrorType :=
  let error_str := strToLower (PyExc.message e)
  match e with
  | PyExc.httpStatusError status _ _ =>
    if status = 429 then ErrorType.rateLimit
    else if status = 502 ∨ status = 503 ∨ status = 504 then ErrorType.serviceUnavailable
    else if 500 ≤ status ∧ status < 600 then ErrorType.serverError
    else ErrorType.unknown
  | PyExc.timeoutExc _ => ErrorType.timeoutError
  | PyExc.networkExc _ => ErrorType.networkError
  | PyExc.generic _ =>
    if strContains error_str "rate limit" || strContains error_str "quota" then
      ErrorType.rateLimit
    else if strContains error_str "service unavailable" || strContains error_str "overloaded" then
      ErrorType.serviceUnavailable
    else if strContains error_str "500" || strContains error_str "502" ||
        strContains error_str "503" || strContains error_str "504" ||
        strContains error_str "507" then
      ErrorType.serverError
    else ErrorType.unknown

/-- Greedy `\d+`: the leading digit run of a character list and the remainder. -/
def takeDigits : List Char → List Char × List Char
  | [] => ([], [])
  | c :: cs =>
    if c.isDigit then
      let rest := takeDigits cs
      (c :: rest.1, rest.2)
    else ([], c :: cs)

/-- Numeric value of a digit run. -/
def digitsToNat (ds : List Char) : Nat :=
  ds.foldl (fun n c => 10 * n + (c.toNat - 48)) 0

/-- Drop an expected literal prefix, or fail. -/
def dropPrefixCL : List Char → List Char → Option (List Char)
  | [], cs => some cs
  | _ :: _, [] => none
  | p :: ps, c :: cs => if p = c then dropPrefixCL ps cs else none

/-- The character class `[:\s]` of the third retry-after pattern. -/
def isColonOrSpace (c : Char) : Bool :=
  c = ':' || c = ' ' || c = '\t' || c = '\n' || c = '\r' || c = '\x0b' || c = '\x0c'

/-- Match of the regex `retry after (\d+) seconds?` at the start of a
(lowercased) character list, returning the captured number. -/
def matchPat1 (cs : List Char) : Option Nat :=
  match dropPrefixCL "retry after ".data cs with
  | none => none
  | some rest =>
    let ds := takeDigits rest
    if ds.1.isEmpty then none
    else
      match dropPrefixCL " second".data ds.2 with
      | none => none
      | some _ => some (digitsToNat ds.1)

/-- Match of the regex `please retry after (\d+)` at the start of a list. -/
def matchPat2 (cs : List Char) : Option Nat :=
  match dropPrefixCL "please retry after ".data cs with
  | none => none
  | some rest =>
    let ds := takeDigits rest
    if ds.1.isEmpty then none else some (digitsToNat ds.1)

/-- Match of the regex `retry-after[:\s]+(\d+)` at the start of a list. -/
def matchPat3 (cs : List Char) : Option Nat :=
  match dropPrefixCL "retry-after".data cs with
  | none => none
  | some rest =>
    let sp := rest.span fun c => isColonOrSpace c
    if sp.1.isEmpty then none
    else
      let ds := takeDigits sp.2
      if ds.1.isEmpty then none else some (digitsToNat ds.1)

/-- `re.search`: try a pattern at every position, leftmost match first. -/
def searchPat (pat : List Char → Option Nat) : List Char → Option Nat
  | [] => pat []
  | c :: rest =>
    match pat (c :: rest) with
    | some n => some n
    | none => searchPat pat rest

/-- Model of the builtin `float()` as applied to a `Retry-After` header value:
an optional sign followed by digits with an optional fractional part parses;
anything else raises `ValueError`, which the caller swallows. -/
def parseFloatCore (cs : List Char) : Option ℚ :=
  let ip := takeDigits cs
  if ip.1.isEmpty then none
  else
    match ip.2 with
    | [] => some (digitsToNat ip.1 : ℚ)
    | c :: rest =>
      if c = '.' then
        let fp := takeDigits rest
        if fp.2.isEmpty && !fp.1.isEmpty then
          some ((digitsToNat ip.1 : ℚ) + (digitsToNat fp.1 : ℚ) / ((10 : ℚ) ^ fp.1.length))
        else none
      else none

/-- Sign handling for `parseFloatCore`. -/
def parseFloatQ (s : String) : Option ℚ :=
  match s.data with
  | '-' :: rest => (parseFloatCore rest).map (fun q => -q)
  | '+' :: rest => parseFloatCore rest
  | cs => parseFloatCore cs

/-- Embedding of `extract_retry_after`: the three case-insensitive message
patterns in order (modelled by lowercasing the message, since the pattern
literals are lowercase and `\d` is case-stable), then the HTTP
`retry-after` header. -/
def extract_retry_after (e : PyExc) : Option ℚ :=
  let lowered := (strToLower (PyExc.message e)).data
  match searchPat matchPat1 lowered with
  | some n => some (n : ℚ)
  | none =>
    match searchPat matchPat2 lowered with
    | some n => some (n : ℚ)
    | none =>
      match searchPat matchPat3 lowered with
      | some n => some (n : ℚ)
      | none =>
        match e with
        | PyExc.httpStatusError _ (some ra) _ => parseFloatQ ra
        | _ => none

/-- The delay of `calculate_delay` just before the jitter step: the
retry-after/backoff choice followed by the `min` clamp at `max_delay`. -/
def preJitterDelay (cfg : SmartRetryConfig) (attempt : Nat) (error_type : ErrorType)
    (retry_after : Option ℚ) : ℚ :=
  let delay :=
    match retry_after with
    | some ra =>
      if error_type = ErrorType.rateLimit then ra * cfg.rate_limit_recovery_multiplier
      else cfg.base_delay * cfg.exponential_factor ^ (attempt - 1)
    | none => cfg.base_delay * cfg.exponential_factor ^ (attempt - 1)
  min delay cfg.max_delay

/-- Embedding of `calculate_delay`. The argument `j` models the draw of
`random.uniform(-jitter_range, jitter_range)`; it is only consulted when
`cfg.jitter` is set, and theorems about jittered delays constrain it to the
range the Python draw can produce. `0.25` and `0.1` become `1/4` and `1/10`. -/
def calculate_delay (cfg : SmartRetryConfig) (attempt : Nat) (error_type : ErrorType)
    (retry_after : Option ℚ) (j : ℚ) : ℚ :=
  let delay := preJitterDelay cfg attempt error_type retry_after
  if cfg.jitter then max (1 / 10 : ℚ) (delay + j) else delay

/-- The `retryable_errors` list membership test of `should_retry`. -/
def retryableType (et : ErrorType) : Bool :=
  [ErrorType.rateLimit, ErrorType.serverError, ErrorType.networkError,
    ErrorType.timeoutError, ErrorType.serviceUnavailable].contains et

/-- Embedding of `should_retry`: note that the attempt bound compares against
`self.config.max_attempts`, the policy default, not any per-call override. -/
def should_retry (cfg : SmartRetryConfig) (e : PyExc) (attempt : Nat) : Bool :=
  if cfg.max_attempts ≤ attempt then false
  else retryableType (classify_error e)

/-- The timestamp `check_circuit_breaker` measures recovery from while OPEN:
`last_failure_time` if set, else `last_rate_limit_time`. -/
def openFailureTime (b : SmartCircuitBreakerState) : Option ℚ :=
  match b.last_failure_time with
  | some t => some t
  | none => b.last_rate_limit_time

/-- Embedding of `check_circuit_breaker`: lazily creates the key's entry,
then gates on the state machine; returns the verdict and the updated handler. -/
def check_circuit_breaker (h : SmartRetryHandler) (key : String) (now : ℚ) :
    Bool × SmartRetryHandler :=
  let cbs := ensureCB h.circuit_breakers key
  let breaker := (lookupCB cbs key).getD SmartCircuitBreakerState.init
  if breaker.state = "OPEN" then
    match openFailureTime breaker with
    | some failure_time =>
      if h.config.recovery_timeout < now - failure_time then
        let bho := { breaker with state := "HALF_OPEN", half_open_calls := 0 }
        (true, { h with circuit_breakers := setCB cbs key bho })
      else (false, { h with circuit_breakers := cbs })
    | none =>
      let bho := { breaker with state := "HALF_OPEN", half_open_calls := 0 }
      (true, { h with circuit_breakers := setCB cbs key bho })
  else if breaker.state = "HALF_OPEN" then
    if breaker.half_open_calls < h.config.half_open_max_calls then
      let binc := { breaker with half_open_calls := breaker.half_open_calls + 1 }
      (true, { h with circuit_breakers := setCB cbs key binc })
    else (false, { h with circuit_breakers := cbs })
  else (true, { h with circuit_breakers := cbs })

/-- Embedding of `record_success`: note the guard `if key in
self.circuit_breakers` — an absent key is left absent. `max(0, n - 1)` is
Nat truncated subtraction. -/
def record_success (h : SmartRetryHandler) (key : String) (now : ℚ) : SmartRetryHandler :=
  match lookupCB h.circuit_breakers key with
  | none => h
  | some breaker =>
    let b1 := { breaker with
      success_count := breaker.success_count + 1
      last_success_time := some now
      consecutive_rate_limits := 0 }
    let b2 :=
      if b1.state = "HALF_OPEN" then
        if 2 ≤ b1.success_count then { b1 with state := "CLOSED", failure_count := 0 } else b1
      else if b1.state = "CLOSED" then { b1 with failure_count := b1.failure_count - 1 }
      else b1
    { h with circuit_breakers := setCB h.circuit_breakers key b2 }

/-- Embedding of `record_failure`: rate limits only count towards
`failure_count` once `consecutive_rate_limits` exceeds 15; then the
open-the-breaker / half-open-probe-failed logic. -/
def record_failure (h : SmartRetryHandler) (key : String) (error_type : ErrorType)
    (now : ℚ) : SmartRetryHandler :=
  let cbs := ensureCB h.circuit_breakers key
  let breaker := (lookupCB cbs key).getD SmartCircuitBreakerState.init
  let b1 :=
    if error_type = ErrorType.rateLimit then
      let br := { breaker with
        consecutive_rate_limits := breaker.consecutive_rate_limits + 1
        last_rate_limit_time := some now }
      if 15 < br.consecutive_rate_limits then
        { br with failure_count := br.failure_count + 1 }
      else br
    else
      { breaker with failure_count := breaker.failure_count + 1, last_failure_time := some now }
  let b2 :=
    if h.config.failure_threshold ≤ b1.failure_count then
      if b1.state ≠ "OPEN" then { b1 with state := "OPEN" } else b1
    else if b1.state = "HALF_OPEN" then
      { b1 with state := "OPEN", last_failure_time := some now }
    else b1
  { h with circuit_breakers := setCB cbs key b2 }

/-- Values appearing in the status dict of `get_circuit_breaker_status`. -/
inductive StatusValue where
  | s (v : String)
  | n (v : Nat)
  | t (v : Option ℚ)
deriving DecidableEq, Repr

/-- Embedding of `get_circuit_breaker_status`: the returned dict, as the
ordered list of key/value pairs the Python dict literal contains. The
function reads the store without creating an entry. -/
def get_circuit_breaker_status (h : SmartRetryHandler) (key : String) :
    List (String × StatusValue) :=
  match lookupCB h.circuit_breakers key with
  | none =>
    [("state", StatusValue.s "CLOSED"), ("failure_count", StatusValue.n 0),
      ("success_count", StatusValue.n 0)]
  | some breaker =>
    [("state", StatusValue.s breaker.state),
      ("failure_count", StatusValue.n breaker.failure_count),
      ("success_count", StatusValue.n breaker.success_count),
      ("consecutive_rate_limits", StatusValue.n breaker.consecutive_rate_limits),
      ("last_failure_time", StatusValue.t breaker.last_failure_time),
      ("last_success_time", StatusValue.t breaker.last_success_time),
      ("last_rate_limit_time", StatusValue.t breaker.last_rate_limit_time)]

/-- Python truthiness of the optional `circuit_breaker_key` argument:
`None` and the empty string are falsy. -/
def keyTruthy : Option String → Bool
  | none => false
  | some s => !(s = "")

/-- `max_attempts or self.config.max_attempts`: an omitted or zero override
falls back to the policy default (0 is falsy in Python). -/
def effectiveMaxAttempts (cfg : SmartRetryConfig) (override : Option Nat) : Nat :=
  match override with
  | some n => if n = 0 then cfg.max_attempts else n
  | none => cfg.max_attempts

/-- Observable events of one `execute_with_retry` call: each invocation of
the wrapped operation (with its attempt number) and each `asyncio.sleep`. -/
inductive RetryEvent where
  | invoked (attempt : Nat)
  | slept (delay : ℚ)
deriving DecidableEq, Repr

/-- Outcomes of `execute_with_retry`: a returned value, a re-raised
operation error, the circuit-open `RuntimeError`, or the defensive
`RuntimeError` raised when no error was captured. -/
inductive ExecResult (α : Type) where
  | ok (value : α)
  | raised (e : PyExc)
  | circuitOpen (key : String)
  | internalError
deriving DecidableEq, Repr

/-- The `for attempt in range(1, effective_max_attempts + 1)` loop of
`execute_with_retry`, with `remaining` iterations left. The wrapped
operation is modelled as a function from the attempt number to its result;
`js` supplies the jitter draw consumed by `calculate_delay` on each sleep. -/
def retryLoop {α : Type} (cfg : SmartRetryConfig) (op : Nat → Except PyExc α)
    (keyOpt : Option String) (effMax : Nat) (now : ℚ) (js : Nat → ℚ)
    (h : SmartRetryHandler) (attempt : Nat) (remaining : Nat) (lastErr : Option PyExc) :
    ExecResult α × SmartRetryHandler × List RetryEvent :=
  match remaining with
  | 0 =>
    match lastErr with
    | some e => (ExecResult.raised e, h, [])
    | none => (ExecResult.internalError, h, [])
  | Nat.succ remaining' =>
    match op attempt with
    | Except.ok v =>
      let h' := if keyTruthy keyOpt then record_success h (keyOpt.getD "") now else h
      (ExecResult.ok v, h', [RetryEvent.invoked attempt])
    | Except.error e =>
      let et := classify_error e
      let h' := if keyTruthy keyOpt then record_failure h (keyOpt.getD "") et now else h
      if should_retry cfg e attempt = false then
        (ExecResult.raised e, h', [RetryEvent.invoked attempt])
      else if effMax ≤ attempt then
        (ExecResult.raised e, h', [RetryEvent.invoked attempt])
      else
        let delay := calculate_delay cfg attempt et (extract_retry_after e) (js attempt)
        let r := retryLoop cfg op keyOpt effMax now js h' (attempt + 1) remaining' (some e)
        (r.1, r.2.1, RetryEvent.invoked attempt :: RetryEvent.slept delay :: r.2.2)

/-- Embedding of `execute_with_retry`: the circuit-breaker gate (only when
the key is truthy), then the bounded retry loop. -/
def execute_with_retry {α : Type} (h : SmartRetryHandler) (op : Nat → Except PyExc α)
    (keyOpt : Option String) (override : Option Nat) (now : ℚ) (js : Nat → ℚ) :
    ExecResult α × SmartRetryHandler × List RetryEvent :=
  let effMax := effectiveMaxAttempts h.config override
  if keyTruthy keyOpt then
    let checked := check_circuit_breaker h (keyOpt.getD "") now
    if checked.1 = false then
      (ExecResult.circuitOpen (keyOpt.getD ""), checked.2, [])
    else
      retryLoop h.config op keyOpt effMax now js checked.2 1 effMax none
  else
    retryLoop h.config op keyOpt effMax now js h 1 effMax none

/-- Attempt numbers of the operation invocations in a trace. -/
def invokedAttempts (evs : List RetryEvent) : List Nat :=
  evs.filterMap fun ev =>
    match ev with
    | RetryEvent.invoked a => some a
    | RetryEvent.slept _ => none

/-- Delays slept in a trace. -/
def sleptDelays (evs : List RetryEvent) : List ℚ :=
  evs.filterMap fun ev =>
    match ev with
    | RetryEvent.invoked _ => none
    | RetryEvent.slept d => some d

/-- Iterated `record_failure` with a fixed key, kind, and clock. -/
def recordFailureIter (h : SmartRetryHandler) (key : String) (et : ErrorType) (now : ℚ) :
    Nat → SmartRetryHandler
  | 0 => h
  | n + 1 => record_failure (recordFailureIter h key et now n) key et now

/-- The verdicts of `n` successive `check_circuit_breaker` calls, each seeing
the handler state the previous call left behind. -/
def checkRun (h : SmartRetryHandler) (key : String) (now : ℚ) : Nat → List Bool
  | 0 => []
  | n + 1 =>
    let step := check_circuit_breaker h key now
    step.1 :: checkRun step.2 key now n

/-- Per-key bound on half-open probe calls (claim C6's invariant). -/
def hocBound (cfg : SmartRetryConfig) (cbs : List (String × SmartCircuitBreakerState)) : Prop :=
  ∀ p ∈ cbs, p.2.half_open_calls ≤ cfg.half_open_max_calls

/-- A representative policy configuration used in concrete theorems
(failure_threshold 5 as the spec's examples assume). -/
def cfgBase : SmartRetryConfig :=
  { max_attempts := 3
    base_delay := 1
    max_delay := 60
    exponential_factor := 2
    jitter := false
    failure_threshold := 5
    recovery_timeout := 30
    half_open_max_calls := 3
    rate_limit_recovery_multiplier := 2 }

/-- Policy with default max_attempts 2, for override experiments. -/
def cfgTwo : SmartRetryConfig := { cfgBase with max_attempts := 2 }

/-- Policy with jitter enabled. -/
def cfgJit : SmartRetryConfig := { cfgBase with jitter := true }

/-- An operation that always fails with a retryable network error. -/
def opNet : Nat → Except PyExc Unit :=
  fun _ => Except.error (PyExc.networkExc "connection reset")

/-- An operation that always fails with an unclassifiable error. -/
def opBoom : Nat → Except PyExc Unit :=
  fun _ => Except.error (PyExc.generic "boom")

/-- A jitter stream that always draws 0. -/
def jsZero : Nat → ℚ := fun _ => 0

/-- Breaker entry stuck OPEN with a failure recorded at time 0. -/
def bOpen : SmartCircuitBreakerState :=
  { SmartCircuitBreakerState.init with
    state := "OPEN", last_failure_time := some 0, failure_count := 5 }

/-- Handler holding `bOpen` under key "k". -/
def hOpen : SmartRetryHandler :=
  { config := cfgBase, circuit_breakers := [("k", bOpen)] }

/-- Breaker entry freshly arrived in HALF_OPEN. -/
def bHO : SmartCircuitBreakerState :=
  { SmartCircuitBreakerState.init with state := "HALF_OPEN" }

/-- Handler holding `bHO` under key "k". -/
def hHO : SmartRetryHandler :=
  { config := cfgBase, circuit_breakers := [("k", bHO)] }

/-- A seen breaker entry with some history, for status/success theorems. -/
def bSeed : SmartCircuitBreakerState :=
  { SmartCircuitBreakerState.init with
    failure_count := 2, success_count := 4, last_success_time := some 9,
    consecutive_rate_limits := 3 }

/-- Handler holding `bSeed` under key "k". -/
def hSeed : SmartRetryHandler :=
  { config := cfgBase, circuit_breakers := [("k", bSeed)] }

lemma lookupCB_setCB_self (cbs : List (String × SmartCircuitBreakerState)) (key : String)
    (v : SmartCircuitBreakerState) : lookupCB (setCB cbs key v) key = some v := by
  induction cbs with
  | nil => simp [setCB, lookupCB]
  | cons p rest ih =>
    obtain ⟨k, w⟩ := p
    by_cases hk : k = key
    · simp [setCB, hk, lookupCB]
    · simp [setCB, hk, lookupCB, ih]

lemma lookupCB_mem {cbs : List (String × SmartCircuitBreakerState)} {key : String}
    {b : SmartCircuitBreakerState} (hb : lookupCB cbs key = some b) : (key, b) ∈ cbs := by
  induction cbs with
  | nil => simp [lookupCB] at hb
  | cons p rest ih =>
    obtain ⟨k, w⟩ := p
    by_cases hk : k = key
    · subst hk
      simp [lookupCB] at hb
      subst hb
      exact List.mem_cons_self _ _
    · simp [lookupCB, hk] at hb
      exact List.mem_cons_of_mem _ (ih hb)

lemma mem_setCB {cbs : List (String × SmartCircuitBreakerState)} {key : String}
    {v : SmartCircuitBreakerState} :
    ∀ p ∈ setCB cbs key v, p = (key, v) ∨ p ∈ cbs := by
  induction cbs with
  | nil => intro p hp; simp [setCB] at hp; exact Or.inl hp
  | cons q rest ih =>
    obtain ⟨k, w⟩ := q
    intro p hp
    by_cases hk : k = key
    · simp [setCB, hk] at hp
      rcases hp with hp | hp
      · exact Or.inl hp
      · exact Or.inr (List.mem_cons_of_mem _ hp)
    · simp only [setCB, if_neg hk, List.mem_cons] at hp
      rcases hp with hp | hp
      · exact Or.inr (by simp [hp])
      · rcases ih p hp with h1 | h1
        · exact Or.inl h1
        · exact Or.inr (List.mem_cons_of_mem _ h1)

lemma mem_ensureCB {cbs : List (String × SmartCircuitBreakerState)} {key : String} :
    ∀ p ∈ ensureCB cbs key, p = (key, SmartCircuitBreakerState.init) ∨ p ∈ cbs := by
  intro p hp
  unfold ensureCB at hp
  cases hl : lookupCB cbs key with
  | some b => rw [hl] at hp; exact Or.inr hp
  | none =>
    rw [hl] at hp
    rcases List.mem_append.mp hp with h1 | h1
    · exact Or.inr h1
    · simp at h1; exact Or.inl h1

lemma ensureCB_eq_of_lookup {cbs : List (String × SmartCircuitBreakerState)} {key : String}
    {b : SmartCircuitBreakerState} (hb : lookupCB cbs key = some b) :
    ensureCB cbs key = cbs := by
  unfold ensureCB; rw [hb]

set_option maxRecDepth 4000 in
/-- C2 counterexample: starting from a fresh Closed state with
failure_threshold = 5, the 16th consecutive RateLimit `record_failure` does
NOT move the state to Open — it is still "CLOSED". -/
theorem C2_counterexample :
    (lookupCB (recordFailureIter (freshHandler cfgBase) "k" ErrorType.rateLimit 0 16).circuit_breakers
        "k").map (fun b => b.state) = some "CLOSED" ∧
    (lookupCB (recordFailureIter (freshHandler cfgBase) "k" ErrorType.rateLimit 0 16).circuit_breakers
        "k").map (fun b => b.state) ≠ some "OPEN" := by
  decide

set_option maxRecDepth 8000 in
/-- C2 (amended): with failure_threshold = 5, consecutive RateLimit failures
from a fresh Closed state leave the breaker Closed through the first 19
calls; failure_count is first incremented on the 16th call (the
consecutive_rate_limits > 15 boundary) and the breaker first opens on the
20th call, when failure_count reaches the threshold. The full trajectory of
(state, failure_count) after 0..20 calls: -/
theorem C2_amended :
    ((List.range 21).map fun n =>
      (lookupCB (recordFailureIter (freshHandler cfgBase) "k" ErrorType.rateLimit 0 n).circuit_breakers
          "k").map fun b => (b.state, b.failure_count)) =
    [none] ++ List.replicate 15 (some ("CLOSED", 0)) ++
      [some ("CLOSED", 1), some ("CLOSED", 2), some ("CLOSED", 3), some ("CLOSED", 4),
        some ("OPEN", 5)] := by
  decide

/-- C4 counterexample: `record_success` on a key absent from the store does
NOT create an entry — the handler is unchanged and the key is still absent,
contradicting the claimed lazily-created entry with success_count = 1. -/
theorem C4_counterexample :
    record_success (freshHandler cfgBase) "k" 3 = freshHandler cfgBase ∧
    lookupCB (record_success (freshHandler cfgBase) "k" 3).circuit_breakers "k" = none := by
  decide

/-- C4 (amended): `record_success` on an absent key is a no-op (no entry is
created); on a present key it increments success_count, sets
last_success_time to now, and resets consecutive_rate_limits to 0. -/
theorem C4_amended (h : SmartRetryHandler) (key : String) (now : ℚ) :
    (lookupCB h.circuit_breakers key = none → record_success h key now = h) ∧
    (∀ b, lookupCB h.circuit_breakers key = some b →
      ((lookupCB (record_success h key now).circuit_breakers key).map
          (fun b2 => b2.success_count) = some (b.success_count + 1)) ∧
      ((lookupCB (record_success h key now).circuit_breakers key).map
          (fun b2 => b2.last_success_time) = some (some now)) ∧
      ((lookupCB (record_success h key now).circuit_breakers key).map
          (fun b2 => b2.consecutive_rate_limits) = some 0)) := by
  constructor
  · intro h0
    unfold record_success
    rw [h0]
  · intro b hb
    unfold record_success
    rw [hb]
    simp only [lookupCB_setCB_self, Option.map_some]
    refine ⟨?_, ?_, ?_⟩ <;> (split_ifs <;> rfl)

/-- C4 witness: the amended theorem applied to a handler already holding an
entry under "k". -/
theorem C4_witness :
    ((lookupCB (record_success hSeed "k" 7).circuit_breakers "k").map
        (fun b2 => b2.success_count) = some (bSeed.success_count + 1)) ∧
    ((lookupCB (record_success hSeed "k" 7).circuit_breakers "k").map
        (fun b2 => b2.last_success_time) = some (some 7)) ∧
    ((lookupCB (record_success hSeed "k" 7).circuit_breakers "k").map
        (fun b2 => b2.consecutive_rate_limits) = some 0) :=
  (C4_amended hSeed "k" 7).2 bSeed (by decide)

/-- C5 counterexample: for an unseen key the status dict has only the three
fields state/failure_count/success_count, not the claimed full seven-field
snapshot. -/
theorem C5_counterexample :
    get_circuit_breaker_status (freshHandler cfgBase) "k" =
      [("state", StatusValue.s "CLOSED"), ("failure_count", StatusValue.n 0),
        ("success_count", StatusValue.n 0)] ∧
    (get_circuit_breaker_status (freshHandler cfgBase) "k").length ≠ 7 := by
  decide

/-- C5 (amended): the status query reads the store without creating an
entry (it is a pure observation of the handler); for a seen key it returns
the full seven-field snapshot, but for an unseen key it returns only the
three-field default Closed/zero snapshot. -/
theorem C5_amended (h : SmartRetryHandler) (key : String) :
    (lookupCB h.circuit_breakers key = none →
      get_circuit_breaker_status h key =
        [("state", StatusValue.s "CLOSED"), ("failure_count", StatusValue.n 0),
          ("success_count", StatusValue.n 0)]) ∧
    (∀ b, lookupCB h.circuit_breakers key = some b →
      get_circuit_breaker_status h key =
        [("state", StatusValue.s b.state),
          ("failure_count", StatusValue.n b.failure_count),
          ("success_count", StatusValue.n b.success_count),
          ("consecutive_rate_limits", StatusValue.n b.consecutive_rate_limits),
          ("last_failure_time", StatusValue.t b.last_failure_time),
          ("last_success_time", StatusValue.t b.last_success_time),
          ("last_rate_limit_time", StatusValue.t b.last_rate_limit_time)]) := by
  constructor
  · intro h0
    unfold get_circuit_breaker_status
    rw [h0]
  · intro b hb
    unfold get_circuit_breaker_status
    rw [hb]

/-- C5 witness: the amended theorem applied to a handler holding an entry. -/
theorem C5_witness :
    get_circuit_breaker_status hSeed "k" =
      [("state", StatusValue.s bSeed.state),
        ("failure_count", StatusValue.n bSeed.failure_count),
        ("success_count", StatusValue.n bSeed.success_count),
        ("consecutive_rate_limits", StatusValue.n bSeed.consecutive_rate_limits),
        ("last_failure_time", StatusValue.t bSeed.last_failure_time),
        ("last_success_time", StatusValue.t bSeed.last_success_time),
        ("last_rate_limit_time", StatusValue.t bSeed.last_rate_limit_time)] :=
  (C5_amended hSeed "k").2 bSeed (by decide)

/-- C3: for a key whose breaker is Open, `check_circuit_breaker` returns
false while `now - t ≤ recovery_timeout` (where `t` is last_failure_time if
set, else last_rate_limit_time); once `now - t` strictly exceeds
recovery_timeout it transitions the entry to HALF_OPEN with half_open_calls
reset to 0 and returns true; and with neither timestamp set it immediately
transitions to HALF_OPEN (reset to 0) and returns true. -/
theorem C3_theorem (h : SmartRetryHandler) (key : String) (now : ℚ)
    (b : SmartCircuitBreakerState) (hb : lookupCB h.circuit_breakers key = some b)
    (hs : b.state = "OPEN") :
    (∀ t, openFailureTime b = some t → now - t ≤ h.config.recovery_timeout →
      check_circuit_breaker h key now = (false, h)) ∧
    (∀ t, openFailureTime b = some t → h.config.recovery_timeout < now - t →
      check_circuit_breaker h key now =
        (true,
          { h with
            circuit_breakers :=
              setCB h.circuit_breakers key
                { b with state := "HALF_OPEN", half_open_calls := 0 } })) ∧
    (openFailureTime b = none →
      check_circuit_breaker h key now =
        (true,
          { h with
            circuit_breakers :=
              setCB h.circuit_breakers key
                { b with state := "HALF_OPEN", half_open_calls := 0 } })) := by
  have hkey : ensureCB h.circuit_breakers key = h.circuit_breakers := ensureCB_eq_of_lookup hb
  refine ⟨?_, ?_, ?_⟩
  · intro t ht hle
    simp only [check_circuit_breaker, hkey, hb, Option.getD_some, hs, ht, if_true]
    rw [if_neg (not_lt.mpr hle)]
  · intro t ht hgt
    simp only [check_circuit_breaker, hkey, hb, Option.getD_some, hs, ht, if_true]
    rw [if_pos hgt]
  · intro ht
    simp only [check_circuit_breaker, hkey, hb, Option.getD_some, hs, ht, if_true]

/-- C3 witness: an Open breaker with last failure at time 0, recovery
timeout 30, checked at time 100. -/
theorem C3_witness :
    check_circuit_breaker hOpen "k" 100 =
      (true,
        { hOpen with
          circuit_breakers :=
            setCB hOpen.circuit_breakers "k"
              { bOpen with state := "HALF_OPEN", half_open_calls := 0 } }) :=
  (C3_theorem hOpen "k" 100 bOpen (by decide) (by decide)).2.1 0 (by decide)
    (by norm_num [hOpen, cfgBase])

lemma keyTruthy_none : keyTruthy none = false := rfl

lemma retryLoop_untracked {α : Type} (cfg : SmartRetryConfig) (op : Nat → Except PyExc α)
    (keyOpt : Option String) (effMax : Nat) (now : ℚ) (js : Nat → ℚ)
    (hk : keyTruthy keyOpt = false) :
    ∀ remaining attempt (h : SmartRetryHandler) (lastErr : Option PyExc),
      retryLoop cfg op keyOpt effMax now js h attempt remaining lastErr =
        retryLoop cfg op none effMax now js h attempt remaining lastErr ∧
      (retryLoop cfg op keyOpt effMax now js h attempt remaining lastErr).2.1 = h := by
  intro remaining
  induction remaining with
  | zero =>
    intro attempt h lastErr
    cases lastErr <;> exact ⟨rfl, rfl⟩
  | succ r ih =>
    intro attempt h lastErr
    cases hop : op attempt with
    | ok v =>
      simp only [retryLoop, hop, hk, keyTruthy_none, Bool.false_eq_true, if_false]
      exact ⟨trivial, trivial⟩
    | error e =>
      simp only [retryLoop, hop, hk, keyTruthy_none, Bool.false_eq_true, if_false]
      split_ifs with h1 h2
      · exact ⟨rfl, rfl⟩
      · exact ⟨rfl, rfl⟩
      · obtain ⟨ihEq, ihH⟩ := ih (attempt + 1) h (some e)
        exact ⟨by rw [ihEq], ihH⟩

/-- C10: calling `execute_with_retry` with the empty string as the
circuit-breaker key behaves exactly like calling it with no key: the gate
check is skipped, and no success or failure is ever recorded — the final
handler is unchanged. -/
theorem C10_theorem {α : Type} (h : SmartRetryHandler) (op : Nat → Except PyExc α)
    (override : Option Nat) (now : ℚ) (js : Nat → ℚ) :
    execute_with_retry h op (some "") override now js =
      execute_with_retry h op none override now js ∧
    (execute_with_retry h op (some "") override now js).2.1 = h := by
  have hk : keyTruthy (some "") = false := rfl
  have hcore := retryLoop_untracked h.config op (some "") (effectiveMaxAttempts h.config override)
    now js hk (effectiveMaxAttempts h.config override) 1 h none
  simp only [execute_with_retry, hk, Bool.false_eq_true, if_false, keyTruthy]
  exact hcore

lemma lookupCB_append_of_none {cbs : List (String × SmartCircuitBreakerState)} {key : String}
    (v : SmartCircuitBreakerState) (hl : lookupCB cbs key = none) :
    lookupCB (cbs ++ [(key, v)]) key = some v := by
  induction cbs with
  | nil => simp [lookupCB]
  | cons p rest ih =>
    obtain ⟨k, w⟩ := p
    by_cases hk : k = key
    · simp [lookupCB, hk] at hl
    · simp only [List.cons_append, lookupCB, if_neg hk] at hl ⊢
      exact ih hl

lemma lookupCB_ensureCB (cbs : List (String × SmartCircuitBreakerState)) (key : String) :
    lookupCB (ensureCB cbs key) key =
      some ((lookupCB cbs key).getD SmartCircuitBreakerState.init) := by
  unfold ensureCB
  cases hl : lookupCB cbs key with
  | some b => simpa using hl
  | none => simpa using lookupCB_append_of_none SmartCircuitBreakerState.init hl

lemma hocBound_ensure {h : SmartRetryHandler} {key : String}
    (hinv : hocBound h.config h.circuit_breakers) :
    ∀ p ∈ ensureCB h.circuit_breakers key,
      p.2.half_open_calls ≤ h.config.half_open_max_calls := by
  intro p hp
  rcases mem_ensureCB p hp with h1 | h1
  · rw [h1]; exact Nat.zero_le _
  · exact hinv p h1

lemma hocBound_check (h : SmartRetryHandler) (key : String) (now : ℚ)
    (hinv : hocBound h.config h.circuit_breakers) :
    hocBound h.config (check_circuit_breaker h key now).2.circuit_breakers := by
  simp only [check_circuit_breaker]
  split
  · split
    · split
      · intro p hp
        rcases mem_setCB p hp with h1 | h1
        · rw [h1]; exact Nat.zero_le _
        · exact hocBound_ensure hinv p h1
      · exact hocBound_ensure hinv
    · intro p hp
      rcases mem_setCB p hp with h1 | h1
      · rw [h1]; exact Nat.zero_le _
      · exact hocBound_ensure hinv p h1
  · split
    · split
      · rename_i hlt
        intro p hp
        rcases mem_setCB p hp with h1 | h1
        · rw [h1]; exact Nat.succ_le_of_lt hlt
        · exact hocBound_ensure hinv p h1
      · exact hocBound_ensure hinv
    · exact hocBound_ensure hinv

lemma hocBound_record_success (h : SmartRetryHandler) (key : String) (now : ℚ)
    (hinv : hocBound h.config h.circuit_breakers) :
    hocBound h.config (record_success h key now).circuit_breakers := by
  cases hl : lookupCB h.circuit_breakers key with
  | none => simp only [record_success, hl]; exact hinv
  | some b =>
    simp only [record_success, hl]
    intro p hp
    rcases mem_setCB p hp with h1 | h1
    · rw [h1]
      have hb := hinv (key, b) (lookupCB_mem hl)
      split_ifs <;> simpa using hb
    · exact hinv p h1

lemma hocBound_record_failure (h : SmartRetryHandler) (key : String) (et : ErrorType)
    (now : ℚ) (hinv : hocBound h.config h.circuit_breakers) :
    hocBound h.config (record_failure h key et now).circuit_breakers := by
  have hbr : ((lookupCB (ensureCB h.circuit_breakers key) key).getD
      SmartCircuitBreakerState.init).half_open_calls ≤ h.config.half_open_max_calls := by
    rw [lookupCB_ensureCB]
    cases hl : lookupCB h.circuit_breakers key with
    | none => exact Nat.zero_le _
    | some b => simpa using hinv (key, b) (lookupCB_mem hl)
  simp only [record_failure]
  intro p hp
  rcases mem_setCB p hp with h1 | h1
  · rw [h1]
    split_ifs <;> simpa using hbr
  · exact hocBound_ensure hinv p h1

lemma check_halfOpen_true {h : SmartRetryHandler} {key : String} {now : ℚ}
    {b : SmartCircuitBreakerState} (hb : lookupCB h.circuit_breakers key = some b)
    (hs : b.state = "HALF_OPEN")
    (hlt : b.half_open_calls < h.config.half_open_max_calls) :
    check_circuit_breaker h key now =
      (true,
        { h with
          circuit_breakers :=
            setCB h.circuit_breakers key
              { b with half_open_calls := b.half_open_calls + 1 } }) := by
  have hkey : ensureCB h.circuit_breakers key = h.circuit_breakers := ensureCB_eq_of_lookup hb
  simp only [check_circuit_breaker, hkey, hb, Option.getD_some, hs, if_true, if_false]
  rw [if_pos hlt, if_neg (by decide : ¬ ("HALF_OPEN" : String) = "OPEN")]

lemma check_halfOpen_false {h : SmartRetryHandler} {key : String} {now : ℚ}
    {b : SmartCircuitBreakerState} (hb : lookupCB h.circuit_breakers key = some b)
    (hs : b.state = "HALF_OPEN")
    (hge : h.config.half_open_max_calls ≤ b.half_open_calls) :
    check_circuit_breaker h key now = (false, h) := by
  have hkey : ensureCB h.circuit_breakers key = h.circuit_breakers := ensureCB_eq_of_lookup hb
  simp only [check_circuit_breaker, hkey, hb, Option.getD_some, hs, if_true, if_false]
  rw [if_neg (not_lt.mpr hge), if_neg (by decide : ¬ ("HALF_OPEN" : String) = "OPEN")]

lemma checkRun_halfOpen (key : String) (now : ℚ) :
    ∀ (k : Nat) (h : SmartRetryHandler) (b : SmartCircuitBreakerState),
      lookupCB h.circuit_breakers key = some b → b.state = "HALF_OPEN" →
      b.half_open_calls + k = h.config.half_open_max_calls →
      checkRun h key now (k + 1) = List.replicate k true ++ [false] := by
  intro k
  induction k with
  | zero =>
    intro h b hb hs hc
    have hge : h.config.half_open_max_calls ≤ b.half_open_calls := by omega
    simp only [checkRun, check_halfOpen_false hb hs hge, List.replicate_zero, List.nil_append]
  | succ k ih =>
    intro h b hb hs hc
    have hlt : b.half_open_calls < h.config.half_open_max_calls := by omega
    rw [checkRun]
    rw [check_halfOpen_true hb hs hlt]
    have hb2 : lookupCB
        ({ h with
          circuit_breakers :=
            setCB h.circuit_breakers key
              { b with half_open_calls := b.half_open_calls + 1 } } :
          SmartRetryHandler).circuit_breakers key =
        some { b with half_open_calls := b.half_open_calls + 1 } := lookupCB_setCB_self _ _ _
    have hrun := ih _ _ hb2 hs (by simpa using by omega)
    simp only [hrun, List.replicate_succ, List.cons_append]

/-- C6: the invariant half_open_calls ≤ half_open_max_calls is preserved by
check_circuit_breaker, record_success, and record_failure (every transition
into HALF_OPEN resets half_open_calls to 0); while HALF_OPEN,
check_circuit_breaker increments half_open_calls and returns true exactly
when half_open_calls < half_open_max_calls, otherwise returns false and
changes nothing — so, from half_open_calls = 0, successive check calls
return true exactly half_open_max_calls times and then false. -/
theorem C6_theorem (h : SmartRetryHandler) (key : String) (now : ℚ) (et : ErrorType)
    (hinv : hocBound h.config h.circuit_breakers) :
    hocBound h.config (check_circuit_breaker h key now).2.circuit_breakers ∧
    hocBound h.config (record_success h key now).circuit_breakers ∧
    hocBound h.config (record_failure h key et now).circuit_breakers ∧
    (∀ b, lookupCB h.circuit_breakers key = some b → b.state = "HALF_OPEN" →
      (b.half_open_calls < h.config.half_open_max_calls →
        check_circuit_breaker h key now =
          (true,
            { h with
              circuit_breakers :=
                setCB h.circuit_breakers key
                  { b with half_open_calls := b.half_open_calls + 1 } })) ∧
      (h.config.half_open_max_calls ≤ b.half_open_calls →
        check_circuit_breaker h key now = (false, h)) ∧
      (b.half_open_calls = 0 →
        checkRun h key now (h.config.half_open_max_calls + 1) =
          List.replicate h.config.half_open_max_calls true ++ [false])) := by
  refine ⟨hocBound_check h key now hinv, hocBound_record_success h key now hinv,
    hocBound_record_failure h key et now hinv, ?_⟩
  intro b hb hs
  refine ⟨fun hlt => check_halfOpen_true hb hs hlt,
    fun hge => check_halfOpen_false hb hs hge, fun h0 => ?_⟩
  exact checkRun_halfOpen key now h.config.half_open_max_calls h b hb hs (by omega)

/-- C6 witness: a HALF_OPEN entry with half_open_calls = 0 and
half_open_max_calls = 3 passes exactly three checks and then fails one. -/
theorem C6_witness :
    checkRun hHO "k" 0 (hHO.config.half_open_max_calls + 1) =
      List.replicate hHO.config.half_open_max_calls true ++ [false] :=
  ((C6_theorem hHO "k" 0 ErrorType.rateLimit
      (by intro p hp; simp only [hHO, List.mem_singleton] at hp; rw [hp]; exact Nat.zero_le _)).2.2.2
    bHO (by decide) (by decide)).2.2 (by decide)

lemma invokedAttempts_cons_invoked (a : Nat) (evs : List RetryEvent) :
    invokedAttempts (RetryEvent.invoked a :: evs) = a :: invokedAttempts evs := rfl

lemma invokedAttempts_cons_slept (d : ℚ) (evs : List RetryEvent) :
    invokedAttempts (RetryEvent.slept d :: evs) = invokedAttempts evs := rfl

lemma getLast?_cons_some {l : List Nat} {a : Nat} (x : Nat) (hl : l.getLast? = some a) :
    (x :: l).getLast? = some a := by
  cases l with
  | nil => simp at hl
  | cons y ys => rw [List.getLast?_cons_cons]; exact hl

lemma retryLoop_raised {α : Type} (cfg : SmartRetryConfig) (op : Nat → Except PyExc α)
    (keyOpt : Option String) (effMax : Nat) (now : ℚ) (js : Nat → ℚ) :
    ∀ (remaining attempt : Nat) (h : SmartRetryHandler) (lastErr : Option PyExc) (e : PyExc),
      (retryLoop cfg op keyOpt effMax now js h attempt remaining lastErr).1 =
        ExecResult.raised e →
      (∃ a, (invokedAttempts
          (retryLoop cfg op keyOpt effMax now js h attempt remaining lastErr).2.2).getLast? =
            some a ∧ op a = Except.error e) ∨
      ((retryLoop cfg op keyOpt effMax now js h attempt remaining lastErr).2.2 = [] ∧
        lastErr = some e) := by
  intro remaining
  induction remaining with
  | zero =>
    intro attempt h lastErr e hres
    cases lastErr with
    | none => simp [retryLoop] at hres
    | some e2 =>
      simp only [retryLoop] at hres ⊢
      cases hres
      exact Or.inr ⟨trivial, rfl⟩
  | succ r ih =>
    intro attempt h lastErr e hres
    cases hop : op attempt with
    | ok v => simp [retryLoop, hop] at hres
    | error e2 =>
      simp only [retryLoop, hop] at hres ⊢
      generalize (if keyTruthy keyOpt = true then
          record_failure h (keyOpt.getD "") (classify_error e2) now
        else h) = hmid at hres ⊢
      split_ifs at hres ⊢ with h1 h2
      · cases hres
        exact Or.inl ⟨attempt, by simp [invokedAttempts], hop⟩
      · cases hres
        exact Or.inl ⟨attempt, by simp [invokedAttempts], hop⟩
      · rcases ih (attempt + 1) hmid (some e2) e hres with ⟨a, hl, hopa⟩ | ⟨htr, heq⟩
        · refine Or.inl ⟨a, ?_, hopa⟩
          simp only [invokedAttempts_cons_invoked, invokedAttempts_cons_slept]
          exact getLast?_cons_some _ hl
        · cases heq
          refine Or.inl ⟨attempt, ?_, hop⟩
          simp only [invokedAttempts_cons_invoked, invokedAttempts_cons_slept, htr]
          rfl

lemma execute_eq_retryLoop {α : Type} (h : SmartRetryHandler) (op : Nat → Except PyExc α)
    (keyOpt : Option String) (override : Option Nat) (now : ℚ) (js : Nat → ℚ)
    (hgate : keyTruthy keyOpt = false ∨
      (check_circuit_breaker h (keyOpt.getD "") now).1 = true) :
    ∃ h1, execute_with_retry h op keyOpt override now js =
      retryLoop h.config op keyOpt (effectiveMaxAttempts h.config override) now js h1 1
        (effectiveMaxAttempts h.config override) none := by
  cases hk : keyTruthy keyOpt with
  | false => exact ⟨h, by simp only [execute_with_retry, hk, Bool.false_eq_true, if_false]⟩
  | true =>
    have hg : (check_circuit_breaker h (keyOpt.getD "") now).1 = true := by
      rcases hgate with hg | hg
      · rw [hk] at hg; exact absurd hg (by simp)
      · exact hg
    refine ⟨(check_circuit_breaker h (keyOpt.getD "") now).2, ?_⟩
    simp only [execute_with_retry, hk, if_true, hg, Bool.true_eq_false, if_false]

/-- C7: when the retry loop ends without a success, the raised error is the
very error object produced by the last invoked attempt; an Unknown-kind
error on the first attempt propagates with a single invocation and no
sleep; and an empty loop (effective max attempts 0) raises the distinct
internal-invariant error. -/
theorem C7_theorem {α : Type} (h : SmartRetryHandler) (op : Nat → Except PyExc α)
    (keyOpt : Option String) (override : Option Nat) (now : ℚ) (js : Nat → ℚ)
    (hgate : keyTruthy keyOpt = false ∨
      (check_circuit_breaker h (keyOpt.getD "") now).1 = true) :
    (∀ e, (execute_with_retry h op keyOpt override now js).1 = ExecResult.raised e →
      ∃ a, (invokedAttempts
          (execute_with_retry h op keyOpt override now js).2.2).getLast? = some a ∧
        op a = Except.error e) ∧
    (∀ e, 1 ≤ effectiveMaxAttempts h.config override → op 1 = Except.error e →
      classify_error e = ErrorType.unknown →
      (execute_with_retry h op keyOpt override now js).1 = ExecResult.raised e ∧
      (execute_with_retry h op keyOpt override now js).2.2 = [RetryEvent.invoked 1]) ∧
    (effectiveMaxAttempts h.config override = 0 →
      (execute_with_retry h op keyOpt override now js).1 = ExecResult.internalError ∧
      (execute_with_retry h op keyOpt override now js).2.2 = []) := by
  obtain ⟨h1, hE⟩ := execute_eq_retryLoop h op keyOpt override now js hgate
  rw [hE]
  refine ⟨?_, ?_, ?_⟩
  · intro e hres
    rcases retryLoop_raised h.config op keyOpt (effectiveMaxAttempts h.config override) now js
        (effectiveMaxAttempts h.config override) 1 h1 none e hres with hL | hR
    · exact hL
    · exact Option.noConfusion hR.2
  · intro e h1le hop hcl
    have hsr : should_retry h.config e 1 = false := by
      unfold should_retry
      rw [hcl]
      split <;> rfl
    cases hm : effectiveMaxAttempts h.config override with
    | zero => omega
    | succ m =>
      refine ⟨?_, ?_⟩ <;> simp [retryLoop, hop, hsr]
  · intro h0
    rw [h0]
    exact ⟨rfl, rfl⟩

/-- C7 witness: an operation failing with an unclassifiable "boom" error is
invoked once, sleeps never, and the very error is re-raised. -/
theorem C7_witness :
    (execute_with_retry (freshHandler cfgBase) opBoom none none 0 jsZero).1 =
      ExecResult.raised (PyExc.generic "boom") ∧
    (execute_with_retry (freshHandler cfgBase) opBoom none none 0 jsZero).2.2 =
      [RetryEvent.invoked 1] :=
  (C7_theorem (freshHandler cfgBase) opBoom none none 0 jsZero (Or.inl rfl)).2.1
    (PyExc.generic "boom") (by decide) rfl (by decide)

lemma range'_succ_one (s n : Nat) : List.range' s (n + 1) = s :: List.range' (s + 1) n := rfl

lemma retryLoop_allFail {α : Type} (cfg : SmartRetryConfig) (op : Nat → Except PyExc α)
    (keyOpt : Option String) (effMax : Nat) (now : ℚ) (js : Nat → ℚ)
    (hop : ∀ a, ∃ e, op a = Except.error e ∧ retryableType (classify_error e) = true) :
    ∀ (remaining attempt : Nat) (h : SmartRetryHandler) (lastErr : Option PyExc),
      attempt + remaining = effMax + 1 →
      invokedAttempts (retryLoop cfg op keyOpt effMax now js h attempt remaining lastErr).2.2 =
        List.range' attempt (min remaining (max (cfg.max_attempts + 1 - attempt) 1)) := by
  intro remaining
  induction remaining with
  | zero =>
    intro attempt h lastErr hrel
    rw [min_eq_left (Nat.zero_le _)]
    cases lastErr <;> rfl
  | succ r ih =>
    intro attempt h lastErr hrel
    obtain ⟨e, hoe, hre⟩ := hop attempt
    simp only [retryLoop, hoe]
    generalize (if keyTruthy keyOpt = true then
        record_failure h (keyOpt.getD "") (classify_error e) now
      else h) = hmid
    split_ifs with hc1 hc2
    · have hca : cfg.max_attempts ≤ attempt := by
        by_contra hlt
        unfold should_retry at hc1
        rw [if_neg hlt, hre] at hc1
        exact Bool.noConfusion hc1
      have harith : min (r + 1) (max (cfg.max_attempts + 1 - attempt) 1) = 1 := by omega
      rw [harith]
      rfl
    · have hr0 : r = 0 := by omega
      subst hr0
      have harith : min (0 + 1) (max (cfg.max_attempts + 1 - attempt) 1) = 1 := by omega
      rw [harith]
      rfl
    · have hca : attempt < cfg.max_attempts := by
        by_contra hge
        exact hc1 (by unfold should_retry; rw [if_pos (le_of_not_lt hge)])
      rw [invokedAttempts_cons_invoked, invokedAttempts_cons_slept]
      rw [ih (attempt + 1) hmid (some e) (by omega)]
      have harith : min (r + 1) (max (cfg.max_attempts + 1 - attempt) 1) =
          min r (max (cfg.max_attempts + 1 - (attempt + 1)) 1) + 1 := by omega
      rw [harith, range'_succ_one]

/-- C1 counterexample: with policy max_attempts = 2, a per-call override of
4, and a retryable (network) error on every attempt, the operation is
invoked only 2 times, not the claimed 4: `should_retry` compares against
the policy default, not the override. -/
theorem C1_counterexample :
    invokedAttempts (execute_with_retry (freshHandler cfgTwo) opNet none (some 4) 0 jsZero).2.2 =
      [1, 2] ∧
    invokedAttempts (execute_with_retry (freshHandler cfgTwo) opNet none (some 4) 0 jsZero).2.2 ≠
      [1, 2, 3, 4] := by
  decide

/-- C1 (amended): with a retryable error on every attempt (and the gate
passing), the attempts made are numbered 1..K with
K = min N (max policy.max_attempts 1), N the effective max attempts: a
failed attempt is retried exactly when attempt < N AND
attempt < policy.max_attempts AND the kind is retryable, so an override
larger than the policy default does not extend the attempts. -/
theorem C1_amended {α : Type} (h : SmartRetryHandler) (op : Nat → Except PyExc α)
    (keyOpt : Option String) (override : Option Nat) (now : ℚ) (js : Nat → ℚ)
    (hgate : keyTruthy keyOpt = false ∨
      (check_circuit_breaker h (keyOpt.getD "") now).1 = true)
    (hop : ∀ a, ∃ e, op a = Except.error e ∧ retryableType (classify_error e) = true) :
    invokedAttempts (execute_with_retry h op keyOpt override now js).2.2 =
      List.range' 1 (min (effectiveMaxAttempts h.config override)
        (max h.config.max_attempts 1)) := by
  obtain ⟨h1, hE⟩ := execute_eq_retryLoop h op keyOpt override now js hgate
  rw [hE]
  rw [retryLoop_allFail h.config op keyOpt (effectiveMaxAttempts h.config override) now js hop
    (effectiveMaxAttempts h.config override) 1 h1 none (by omega)]
  have hm1 : h.config.max_attempts + 1 - 1 = h.config.max_attempts := by omega
  rw [hm1]

/-- C1 witness: the amended count theorem at policy max 2, override 4, a
network error on every attempt. -/
theorem C1_witness :
    invokedAttempts (execute_with_retry (freshHandler cfgTwo) opNet none (some 4) 0 jsZero).2.2 =
      List.range' 1 (min (effectiveMaxAttempts (freshHandler cfgTwo).config (some 4))
        (max (freshHandler cfgTwo).config.max_attempts 1)) :=
  C1_amended (freshHandler cfgTwo) opNet none (some 4) 0 jsZero (Or.inl rfl)
    (fun _ => ⟨PyExc.networkExc "connection reset", rfl, by decide⟩)

/-- C8: with jitter disabled and no retry-after hint (under the backoff
reading of the policy: nonnegative base_delay ≤ max_delay and
exponential_factor ≥ 1), the delay equals base_delay at attempt 1, is
non-decreasing in the attempt number, and never exceeds max_delay. -/
theorem C8_theorem (cfg : SmartRetryConfig) (attempt : Nat) (k : ErrorType) (j : ℚ)
    (hj : cfg.jitter = false) (hb : 0 ≤ cfg.base_delay) (hf : 1 ≤ cfg.exponential_factor)
    (hbm : cfg.base_delay ≤ cfg.max_delay) :
    calculate_delay cfg 1 k none j = cfg.base_delay ∧
    calculate_delay cfg attempt k none j ≤ calculate_delay cfg (attempt + 1) k none j ∧
    calculate_delay cfg attempt k none j ≤ cfg.max_delay := by
  have hpre : ∀ a, preJitterDelay cfg a k none =
      min (cfg.base_delay * cfg.exponential_factor ^ (a - 1)) cfg.max_delay := fun a => rfl
  simp only [calculate_delay, hj, Bool.false_eq_true, if_false]
  refine ⟨?_, ?_, ?_⟩
  · have h1 : cfg.base_delay * cfg.exponential_factor ^ (1 - 1) = cfg.base_delay := by
      norm_num
    rw [hpre, h1]
    exact min_eq_left hbm
  · rw [hpre, hpre]
    apply min_le_min _ le_rfl
    apply mul_le_mul_of_nonneg_left _ hb
    exact pow_le_pow_right₀ hf (by omega)
  · rw [hpre]
    exact min_le_right _ _

/-- C8 witness: the theorem at the representative policy, attempt 3. -/
theorem C8_witness :
    calculate_delay cfgBase 1 ErrorType.serverError none 0 = cfgBase.base_delay ∧
    calculate_delay cfgBase 3 ErrorType.serverError none 0 ≤
      calculate_delay cfgBase 4 ErrorType.serverError none 0 ∧
    calculate_delay cfgBase 3 ErrorType.serverError none 0 ≤ cfgBase.max_delay :=
  C8_theorem cfgBase 3 ErrorType.serverError 0 rfl (by norm_num [cfgBase])
    (by norm_num [cfgBase]) (by norm_num [cfgBase])

/-- C9: with jitter enabled, for any attempt, kind, nonnegative hint and
any jitter draw within ±25% of the clamped base (under nonnegative policy
numbers and max_delay ≥ 0.1), the returned delay is at least 0.1 and at
most 1.25 × max_delay. -/
theorem C9_theorem (cfg : SmartRetryConfig) (attempt : Nat) (k : ErrorType)
    (hint : Option ℚ) (j : ℚ) (hj : cfg.jitter = true) (hb : 0 ≤ cfg.base_delay)
    (hf : 0 ≤ cfg.exponential_factor) (hm : 0 ≤ cfg.rate_limit_recovery_multiplier)
    (hmd : 1 / 10 ≤ cfg.max_delay) (hhint : ∀ x, hint = some x → 0 ≤ x)
    (hjr : |j| ≤ preJitterDelay cfg attempt k hint * (1 / 4)) :
    1 / 10 ≤ calculate_delay cfg attempt k hint j ∧
    calculate_delay cfg attempt k hint j ≤ 5 / 4 * cfg.max_delay := by
  have hD0 : 0 ≤ preJitterDelay cfg attempt k hint := by
    unfold preJitterDelay
    apply le_min _ (by linarith)
    cases hint with
    | none => exact mul_nonneg hb (pow_nonneg hf _)
    | some x =>
      show 0 ≤ if k = ErrorType.rateLimit then x * cfg.rate_limit_recovery_multiplier
        else cfg.base_delay * cfg.exponential_factor ^ (attempt - 1)
      by_cases hk : k = ErrorType.rateLimit
      · rw [if_pos hk]
        exact mul_nonneg (hhint x rfl) hm
      · rw [if_neg hk]
        exact mul_nonneg hb (pow_nonneg hf _)
  have hDm : preJitterDelay cfg attempt k hint ≤ cfg.max_delay := min_le_right _ _
  have hjle : j ≤ preJitterDelay cfg attempt k hint * (1 / 4) := (abs_le.mp hjr).2
  simp only [calculate_delay, hj, if_true]
  constructor
  · exact le_max_left _ _
  · apply max_le
    · linarith
    · linarith

/-- C9 witness: the theorem at the jittered policy, attempt 2, no hint,
zero jitter draw. -/
theorem C9_witness :
    1 / 10 ≤ calculate_delay cfgJit 2 ErrorType.serverError none 0 ∧
    calculate_delay cfgJit 2 ErrorType.serverError none 0 ≤ 5 / 4 * cfgJit.max_delay :=
  C9_theorem cfgJit 2 ErrorType.serverError none 0 rfl (by norm_num [cfgJit, cfgBase])
    (by norm_num [cfgJit, cfgBase]) (by norm_num [cfgJit, cfgBase])
    (by norm_num [cfgJit, cfgBase]) (fun x hx => Option.noConfusion hx)
    (by norm_num [preJitterDelay, cfgJit, cfgBase, min_def])
